import Mathlib

/-!
# Ledger & Settlement Engine — verification of the spec against the code

Shallow embedding of the ledger / settlement engine of the `seventwo`
application: `src/lib/calculations/ledger.ts` and the debt-calculation
module (`calculateDebts` and friends).  JavaScript numbers are modelled
as rationals (`ℚ`); `null`/possibly-absent values as `Option`; the
ordered arrays as `List`.  `Math.round` on a finite JavaScript number
is `⌊x + 1/2⌋` (round half towards `+∞`), which is how
`roundToTwoDecimals` is embedded below.
-/

namespace SevenTwo

/-- Embedding of a `buy_in_ledger` row (`BuyInLedgerEntry` in `types/database`):
one buy-in or rebuy for one participant.  Fields not read by the
calculation code (`notes`, `created_at`) are omitted. -/
structure BuyInLedgerEntry where
  id : String
  participant_id : String
  amount : ℚ
  is_rebuy : Bool
deriving DecidableEq

/-- An event participant as consumed by the calculation code: the union
of the fields read from `ParticipantWithLedger` / `ParticipantWithProfile`
(`id`, `user_id`, `profile.display_name`, `buy_in_amount`,
`cash_out_amount`, `buy_in_ledger`).  `display_name` is nullable in the
database, hence `Option String`. -/
structure Participant where
  id : String
  user_id : String
  display_name : Option String
  buy_in_amount : ℚ
  cash_out_amount : Option ℚ
  buy_in_ledger : List BuyInLedgerEntry
deriving DecidableEq

/-- Embedding of `roundToTwoDecimals(num) = Math.round(num * 100) / 100`;
JavaScript `Math.round x = ⌊x + 1/2⌋` (round half towards `+∞`).
`Rat.floor` is the computable floor on `ℚ`; it agrees with `⌊·⌋`
(`roundToTwoDecimals_eq_intFloor` below). -/
def roundToTwoDecimals (num : ℚ) : ℚ :=
  (((num * 100 + 1/2).floor : ℤ) : ℚ) / 100

/-- Embedding of `calculateTotalBuyIn`: sum of the entry amounts, rounded to cents. -/
def calculateTotalBuyIn (ledger : List BuyInLedgerEntry) : ℚ :=
  roundToTwoDecimals ((ledger.map (·.amount)).sum)

/-- Embedding of `countRebuys`: `ledger.filter(entry => entry.is_rebuy).length`. -/
def countRebuys (ledger : List BuyInLedgerEntry) : ℕ :=
  (ledger.filter (·.is_rebuy)).length

/-- Embedding of `getInitialBuyIn`: amount of the first entry whose `is_rebuy` flag is
false (`ledger.find(entry => !entry.is_rebuy)`), `0` if there is none. -/
def getInitialBuyIn (ledger : List BuyInLedgerEntry) : ℚ :=
  ((ledger.find? (fun e => !e.is_rebuy)).map (·.amount)).getD 0

/-- Embedding of `getTotalRebuys`: sum of the amounts of the entries whose `is_rebuy`
flag is set, rounded to cents. -/
def getTotalRebuys (ledger : List BuyInLedgerEntry) : ℚ :=
  roundToTwoDecimals (((ledger.filter (·.is_rebuy)).map (·.amount)).sum)

/-- The flag discipline the buy-in API route enforces when it writes
ledger entries (`isActuallyRebuy = existingBuyIns > 0` in the
`POST /api/events/[id]/buy-in` handler): the first stored entry carries
`is_rebuy = false` and every later entry carries `is_rebuy = true`,
whatever the caller sent. -/
def PositionalFlags : List BuyInLedgerEntry → Prop
  | [] => True
  | e :: rest => e.is_rebuy = false ∧ ∀ e' ∈ rest, e'.is_rebuy = true

instance : DecidablePred PositionalFlags := fun l => by
  cases l with
  | nil => exact isTrue trivial
  | cons e rest => exact inferInstanceAs (Decidable (_ ∧ _))

/-- Embedding of the `EventFinancialSummary` record. -/
structure EventFinancialSummary where
  totalBuyIns : ℚ
  totalCashOuts : ℚ
  moneyStillInPlay : ℚ
  balanceCheck : ℚ
  isBalanced : Bool
  participantsCount : ℕ
  participantsCashedOut : ℕ
  participantsStillPlaying : ℕ
  canSettle : Bool
deriving DecidableEq

/-- The `reduce` that several functions in `ledger.ts` perform inline:
total event buy-ins, `participants.reduce((sum, p) => sum +
calculateTotalBuyIn(p.buy_in_ledger || []), 0)`. -/
def sumTotalBuyIns (participants : List Participant) : ℚ :=
  (participants.map (fun p => calculateTotalBuyIn p.buy_in_ledger)).sum

/-- Embedding of `calculateEventSummary`. -/
def calculateEventSummary (participants : List Participant) :
    EventFinancialSummary :=
  let totalBuyIns := sumTotalBuyIns participants
  let totalCashOuts := (participants.map (fun p => p.cash_out_amount.getD 0)).sum
  let participantsCashedOut :=
    (participants.filter (fun p => p.cash_out_amount.isSome)).length
  let participantsStillPlaying := participants.length - participantsCashedOut
  let moneyStillInPlay := roundToTwoDecimals (totalBuyIns - totalCashOuts)
  let balanceCheck :=
    if participantsStillPlaying = 0
    then roundToTwoDecimals (totalBuyIns - totalCashOuts)
    else 0
  { totalBuyIns := roundToTwoDecimals totalBuyIns
    totalCashOuts := roundToTwoDecimals totalCashOuts
    moneyStillInPlay
    balanceCheck
    isBalanced := |balanceCheck| < 1/100
    participantsCount := participants.length
    participantsCashedOut
    participantsStillPlaying
    canSettle := participantsStillPlaying = 0 ∧ participants.length > 0 }

/-- Embedding of `CashOutValidation`; the optional `suggestedAmount` field is absent
(`none`) on the code path that does not set it. -/
structure CashOutValidation where
  isValid : Bool
  errors : List String
  warnings : List String
  suggestedAmount : Option ℚ
deriving DecidableEq

/- The user-facing strings pushed by `validateCashOut` and
`checkEventCanSettle`.  The TypeScript interpolates concrete dollar
figures into some of them; the interpolated digits are display-only, so
each message is embedded as the constant part of the template. -/

/-- Error string of `validateCashOut` for a negative amount. -/
def msgNegative : String := "Cash-out amount cannot be negative"

/-- Error string of `validateCashOut` for a repeated cash-out. -/
def msgAlreadyCashedOut : String := "Participant has already cashed out"

/-- Error string of `validateCashOut` for a zero total buy-in. -/
def msgNoBuyIns : String := "Participant has no buy-ins recorded"

/-- Error string of `validateCashOut` for an amount above the pot
(the TypeScript template interpolates the two amounts). -/
def msgExceedsPot : String := "Cash-out exceeds total money in play"

/-- Warning string of the last-player branch of `validateCashOut`. -/
def msgLastPlayer : String :=
  "As the last player, expected cash-out differs from the balancing amount"

/-- Warning string of `validateCashOut` for a large win. -/
def msgLargeWin : String := "Large win detected"

/-- Warning string of `validateCashOut` for a $0 cash-out. -/
def msgBust : String := "Recording $0 cash-out (complete loss)"

/-- Embedding of `validateCashOut(amount, participant, allParticipants)`. -/
def validateCashOut (amount : ℚ) (participant : Participant)
    (allParticipants : List Participant) : CashOutValidation :=
  let errors₁ := if amount < 0 then [msgNegative] else []
  let errors₂ := errors₁ ++
    (if participant.cash_out_amount.isSome then [msgAlreadyCashedOut] else [])
  let totalBuyIn := calculateTotalBuyIn participant.buy_in_ledger
  let errors₃ := errors₂ ++ (if totalBuyIn = 0 then [msgNoBuyIns] else [])
  let otherParticipants := allParticipants.filter (fun p => p.id ≠ participant.id)
  let othersCashedOut := otherParticipants.filter (fun p => p.cash_out_amount.isSome)
  let othersStillPlaying := otherParticipants.filter (fun p => p.cash_out_amount.isNone)
  if othersStillPlaying.length = 0 ∧ othersCashedOut.length > 0 then
    -- last person cashing out: suggest the exact amount
    let totalBuyIns := sumTotalBuyIns allParticipants
    let totalCashedOut := (othersCashedOut.map (fun p => p.cash_out_amount.getD 0)).sum
    let expectedAmount := roundToTwoDecimals (totalBuyIns - totalCashedOut)
    let warnings :=
      if |amount - expectedAmount| > 1/100 then [msgLastPlayer] else []
    { isValid := errors₃.isEmpty
      errors := errors₃
      warnings
      suggestedAmount := some expectedAmount }
  else
    let totalEventBuyIns := sumTotalBuyIns allParticipants
    let errors₄ := errors₃ ++
      (if amount > totalEventBuyIns then [msgExceedsPot] else [])
    let profitLoss := amount - totalBuyIn
    let warnings₁ := if profitLoss > totalBuyIn * 3 then [msgLargeWin] else []
    let warnings₂ := warnings₁ ++
      (if amount = 0 ∧ totalBuyIn > 0 then [msgBust] else [])
    { isValid := errors₄.isEmpty
      errors := errors₄
      warnings := warnings₂
      suggestedAmount := none }

/-- Embedding of `SettlementCheck`; the optional `reason` field is `none` on the
success path. -/
structure SettlementCheck where
  canSettle : Bool
  reason : Option String
  summary : EventFinancialSummary
deriving DecidableEq

/-- Reason string of `checkEventCanSettle` for an empty event. -/
def msgNoParticipants : String := "No participants in this event"

/-- Reason string of `checkEventCanSettle` when players are still in
(the TypeScript interpolates the count). -/
def msgStillPlaying : String := "player(s) still need to cash out"

/-- Reason string of `checkEventCanSettle` for unbalanced books
(the TypeScript interpolates the discrepancy). -/
def msgUnbalanced : String := "Books don't balance"

/-- Embedding of `checkEventCanSettle(participants)`. -/
def checkEventCanSettle (participants : List Participant) : SettlementCheck :=
  let summary := calculateEventSummary participants
  if summary.participantsCount = 0 then
    { canSettle := false, reason := some msgNoParticipants, summary }
  else if summary.participantsStillPlaying > 0 then
    { canSettle := false, reason := some msgStillPlaying, summary }
  else if !summary.isBalanced then
    { canSettle := false, reason := some msgUnbalanced, summary }
  else
    { canSettle := true, reason := none, summary }

/-- Embedding of `Debt`: one directional payment obligation. -/
structure Debt where
  fromUserId : String
  fromUserName : String
  toUserId : String
  toUserName : String
  amount : ℚ
deriving DecidableEq

/-- Element of the intermediate `balances` array of `calculateDebts`:
`{ userId, userName, balance }`. -/
structure BalanceEntry where
  userId : String
  userName : String
  balance : ℚ
deriving DecidableEq

/-- Element of the `winners` list of a `DebtCalculationResult`. -/
structure WinnerEntry where
  userId : String
  userName : String
  profit : ℚ
deriving DecidableEq

/-- Element of the `losers` list of a `DebtCalculationResult`. -/
structure LoserEntry where
  userId : String
  userName : String
  loss : ℚ
deriving DecidableEq

/-- Embedding of `DebtCalculationResult`.  The early return of `calculateDebts` (no
cashed-out participant) builds an object carrying no `winners`/`losers`
fields at all, so both are embedded as `Option`s: `none` exactly when
the field is absent from the returned object. -/
structure DebtCalculationResult where
  debts : List Debt
  totalPot : ℚ
  participantsCount : ℕ
  balanceCheck : ℚ
  winners : Option (List WinnerEntry)
  losers : Option (List LoserEntry)
deriving DecidableEq

/-- Embedding of `calculateNetProfitLoss(buyIn, cashOut)`: `0` while still playing,
`cashOut − buyIn` once cashed out. -/
def calculateNetProfitLoss (buyIn : ℚ) (cashOut : Option ℚ) : ℚ :=
  match cashOut with
  | none => 0
  | some c => c - buyIn

/-- Embedding of `.sort((a, b) => b.balance - a.balance)`: a stable sort, descending
by balance (JavaScript `Array.prototype.sort` is stable, and the
comparator orders by balance, descending).  `List.insertionSort` with
`b.balance ≤ a.balance` computes exactly that stable descending
permutation. -/
def sortByBalanceDesc (l : List BalanceEntry) : List BalanceEntry :=
  l.insertionSort (fun a b => b.balance ≤ a.balance)

/-- The `while (winnerIndex < winners.length && loserIndex < losers.length)`
loop of `calculateDebts`, with the two pointers and the mutable
`winnerBalances` / `loserBalances` arrays represented by the two list
arguments (the loop never revisits an index it has advanced past, and
only ever mutates the balance at the current index, so the suffix lists
carry the whole loop state).  Per iteration: `amount = min(winnerBalance,
loserBalance)`; a debt is pushed iff `amount > 0.01`; `amount` is
subtracted from both current balances; the winner pointer advances iff
the updated winner balance is `< 0.01`, the loser pointer iff the
updated loser balance is `< 0.01` — these two tests are independent in
the source, but since `amount` is the minimum, one of the two updated
balances is exactly `0 < 0.01`, so at least one pointer advances and
the fourth combination (neither advances, an infinite loop in the
source) is unreachable: in the branch below where the updated winner
balance is `≥ 0.01`, the updated loser balance is necessarily `0`, so
only the loser pointer advances. -/
def settleLoop (winners losers : List BalanceEntry) : List Debt :=
  match winners, losers with
  | [], _ => []
  | _ :: _, [] => []
  | w :: ws, l :: ls =>
    let amount := min w.balance l.balance
    let emitted : List Debt :=
      if amount > 1/100 then
        [{ fromUserId := l.userId
           fromUserName := l.userName
           toUserId := w.userId
           toUserName := w.userName
           amount := roundToTwoDecimals amount }]
      else []
    let wb := w.balance - amount
    let lb := l.balance - amount
    if wb < 1/100 then
      if lb < 1/100 then emitted ++ settleLoop ws ls
      else emitted ++ settleLoop ws ({ l with balance := lb } :: ls)
    else emitted ++ settleLoop ({ w with balance := wb } :: ws) ls
termination_by winners.length + losers.length
decreasing_by all_goals simp only [List.length_cons]; omega

/-- Embedding of `participants.filter((p) => p.cash_out_amount !== null)`:
the `completedParticipants` of `calculateDebts`, lifted to the top
level so the theorems can mention it. -/
def completedParticipants (participants : List Participant) : List Participant :=
  participants.filter (fun p => p.cash_out_amount.isSome)

/-- The `balances` array of `calculateDebts`, lifted to the top level:
userId, display name (`display_name`, with the string Unknown
substituted when it is null) and net
profit/loss of each completed participant. -/
def balancesOf (completed : List Participant) : List BalanceEntry :=
  completed.map (fun p =>
    { userId := p.user_id
      userName := p.display_name.getD "Unknown"
      balance := calculateNetProfitLoss p.buy_in_amount p.cash_out_amount })

/-- The `winners` array of `calculateDebts`: entries with positive
balance, sorted descending. -/
def winnersOf (balances : List BalanceEntry) : List BalanceEntry :=
  sortByBalanceDesc (balances.filter (fun b => b.balance > 0))

/-- The `losers` array of `calculateDebts`: entries with negative
balance, balances replaced by their absolute value, sorted descending. -/
def losersOf (balances : List BalanceEntry) : List BalanceEntry :=
  sortByBalanceDesc
    ((balances.filter (fun b => b.balance < 0)).map
      (fun b => { b with balance := |b.balance| }))

/-- Embedding of `calculateDebts(participants)`. -/
def calculateDebts (participants : List Participant) : DebtCalculationResult :=
  let completed := completedParticipants participants
  if completed.length = 0 then
    -- early return: the built object has no winners/losers fields
    { debts := []
      totalPot := 0
      participantsCount := 0
      balanceCheck := 0
      winners := none
      losers := none }
  else
    let totalPot := (completed.map (·.buy_in_amount)).sum
    let balances := balancesOf completed
    let balanceCheck := (balances.map (·.balance)).sum
    let winners := winnersOf balances
    let losers := losersOf balances
    let debts := settleLoop winners losers
    { debts
      totalPot := roundToTwoDecimals totalPot
      participantsCount := completed.length
      balanceCheck := roundToTwoDecimals balanceCheck
      winners := some (winners.map (fun w =>
        { userId := w.userId
          userName := w.userName
          profit := roundToTwoDecimals
            (((balances.find? (fun b => b.userId = w.userId)).map (·.balance)).getD 0) }))
      losers := some (losers.map (fun l =>
        { userId := l.userId
          userName := l.userName
          loss := roundToTwoDecimals l.balance })) }

/-- The balancing amount the spec prescribes for the last player left
to cash out: total buy-ins of all participants minus the sum of the
cash-outs of the other participants, rounded to cents.  (The code computes
the same value inside the last-player branch of `validateCashOut`,
summing over the cashed-out others — the same set there.) -/
def lastPlayerExpected (participant : Participant)
    (allParticipants : List Participant) : ℚ :=
  roundToTwoDecimals (sumTotalBuyIns allParticipants -
    (((allParticipants.filter (fun p => p.id ≠ participant.id)).map
      (fun p => p.cash_out_amount.getD 0)).sum))

/-! ## Concrete inputs used by counterexamples and witnesses -/

/-- A one-entry ledger whose caller-supplied flag marks the single
(first) entry as a rebuy. -/
def entryFlaggedRebuy : BuyInLedgerEntry :=
  { id := "e1", participant_id := "p1", amount := 10, is_rebuy := true }

/-- A two-entry ledger following the positional flag discipline. -/
def posLedger : List BuyInLedgerEntry :=
  [ { id := "a1", participant_id := "p1", amount := 25, is_rebuy := false }
  , { id := "a2", participant_id := "p1", amount := 40, is_rebuy := true } ]

/-- Participant still playing, with a $10 buy-in (two participants for
the last-player scenario). -/
def lastA : Participant :=
  { id := "a", user_id := "ua", display_name := some "A"
    buy_in_amount := 10, cash_out_amount := none
    buy_in_ledger := [{ id := "la", participant_id := "a", amount := 10, is_rebuy := false }] }

/-- Participant already cashed out for $5, with a $10 buy-in. -/
def lastB : Participant :=
  { id := "b", user_id := "ub", display_name := some "B"
    buy_in_amount := 10, cash_out_amount := some 5
    buy_in_ledger := [{ id := "lb", participant_id := "b", amount := 10, is_rebuy := false }] }

/-- Lone participant: still playing, $10 buy-in, no other participants. -/
def soloPlayer : Participant :=
  { id := "s", user_id := "us", display_name := some "S"
    buy_in_amount := 10, cash_out_amount := none
    buy_in_ledger := [{ id := "ls", participant_id := "s", amount := 10, is_rebuy := false }] }

/-- Cashed-out participant whose books are off by $5 (buy-in 10,
cash-out 5). -/
def lossyPlayer : Participant :=
  { id := "w", user_id := "uw", display_name := some "W"
    buy_in_amount := 10, cash_out_amount := some 5
    buy_in_ledger := [{ id := "lw", participant_id := "w", amount := 10, is_rebuy := false }] }

/-- The conservation-law quantity of the spec: the sum over the
participants of (cash-out − total buy-in), a still-playing participant
contributing its `null`-as-0 cash-out. -/
def sumNetProfitLoss (participants : List Participant) : ℚ :=
  (participants.map (fun p => p.cash_out_amount.getD 0 - p.buy_in_amount)).sum

/-- Winner-side loop state with a half-cent remaining balance. -/
def wSmall : BalanceEntry := { userId := "w", userName := "W", balance := 1/200 }

/-- Loser-side loop state with a $3 remaining balance. -/
def lBig : BalanceEntry := { userId := "l", userName := "L", balance := 3 }

/-- Build one of the participants of the worked example of the spec. -/
def mkExampleP (uid : String) (name : String) (bi co : ℚ) : Participant :=
  { id := uid, user_id := uid, display_name := some name
    buy_in_amount := bi, cash_out_amount := some co, buy_in_ledger := [] }

/-- The eight participants of the worked example, in the listed order:
Alice 100→400, Bob 150→250, Charlie 200→200, Diana 200→200,
Eve 150→100, Frank 200→120, Grace 250→70, Henry 150→60. -/
def examplePs : List Participant :=
  [ mkExampleP "alice" "Alice" 100 400
  , mkExampleP "bob" "Bob" 150 250
  , mkExampleP "charlie" "Charlie" 200 200
  , mkExampleP "diana" "Diana" 200 200
  , mkExampleP "eve" "Eve" 150 100
  , mkExampleP "frank" "Frank" 200 120
  , mkExampleP "grace" "Grace" 250 70
  , mkExampleP "henry" "Henry" 150 60 ]

/-! ## Shared helper lemmas -/

/-- Rewriting `roundToTwoDecimals` with the mathematical floor. -/
theorem roundToTwoDecimals_eq_intFloor (q : ℚ) :
    roundToTwoDecimals q = (⌊q * 100 + 1/2⌋ : ℚ) / 100 := by
  rw [roundToTwoDecimals, Rat.floor_def', Rat.floor_def]

/-! ## C1 — rebuy derivation -/

/-- C1 (counterexample).  The claim says the aggregator is positional
regardless of the caller-supplied `is_rebuy` flag: on the one-entry
ledger `[entryFlaggedRebuy]` it would have to return initial buy-in 10
(the amount of the first entry), rebuy count 0 and total rebuys 0.  The
code returns initial buy-in 0, rebuy count 1, total rebuys 10, because
all three functions read the stored flag. -/
theorem C1_flagged_counterexample :
    getInitialBuyIn [entryFlaggedRebuy] ≠ 10 ∧
    countRebuys [entryFlaggedRebuy] ≠ 0 ∧
    getTotalRebuys [entryFlaggedRebuy] ≠ 0 := by
  refine ⟨?_, ?_, ?_⟩ <;>
    norm_num +decide [getInitialBuyIn, countRebuys, getTotalRebuys,
      entryFlaggedRebuy, roundToTwoDecimals_eq_intFloor, List.find?]

/-- C1 (amended).  The aggregator follows the stored `is_rebuy` flags;
on every ledger whose flags obey the positional discipline that the
buy-in write path enforces (first entry not flagged, all later entries
flagged) — and only then — the aggregation is positional: the initial
buy-in is the amount of the first entry (0 if there is none), the rebuy
count is the number of entries after the first, and the total rebuy
amount is the rounded sum of the amounts after the first. -/
theorem C1_positional_on_disciplined_flags (l : List BuyInLedgerEntry)
    (h : PositionalFlags l) :
    getInitialBuyIn l = ((l.head?.map (·.amount)).getD 0) ∧
    countRebuys l = l.length - 1 ∧
    getTotalRebuys l = roundToTwoDecimals ((l.tail.map (·.amount)).sum) := by
  cases l with
  | nil => exact ⟨rfl, rfl, rfl⟩
  | cons e rest =>
    obtain ⟨he, hrest⟩ := h
    have hfilter : rest.filter (·.is_rebuy) = rest :=
      List.filter_eq_self.mpr (fun a ha => by simp [hrest a ha])
    refine ⟨?_, ?_, ?_⟩
    · simp [getInitialBuyIn, List.find?_cons, he]
    · simp [countRebuys, List.filter_cons, he, hfilter]
    · simp [getTotalRebuys, List.filter_cons, he, hfilter]

/-- C1 (witness for the amended theorem) at the concrete disciplined
two-entry ledger `posLedger`. -/
theorem C1_positional_witness :
    PositionalFlags posLedger ∧
    (getInitialBuyIn posLedger = ((posLedger.head?.map (·.amount)).getD 0) ∧
     countRebuys posLedger = posLedger.length - 1 ∧
     getTotalRebuys posLedger =
       roundToTwoDecimals ((posLedger.tail.map (·.amount)).sum)) :=
  ⟨by decide, C1_positional_on_disciplined_flags posLedger (by decide)⟩

/-! ## C6 — double cash-out gating -/

/-- C6.  Whenever the target participant already has a cash-out
recorded, `validateCashOut` puts the already-cashed-out error in the
error list and returns `isValid = false`, for every proposed amount and
every surrounding participant set — on the last-player return path as
well as on the general one. -/
theorem C6_double_cashout_blocked (amount : ℚ) (participant : Participant)
    (allParticipants : List Participant)
    (h : participant.cash_out_amount.isSome) :
    msgAlreadyCashedOut ∈ (validateCashOut amount participant allParticipants).errors ∧
    (validateCashOut amount participant allParticipants).isValid = false := by
  unfold validateCashOut
  simp only [h, if_true]
  split <;>
    simp [List.isEmpty_iff, List.mem_append]

/-- C6 (witness): a participant who already cashed out for $5 proposes
a second $7 cash-out. -/
theorem C6_double_cashout_witness :
    lastB.cash_out_amount.isSome ∧
    (msgAlreadyCashedOut ∈ (validateCashOut 7 lastB [lastA, lastB]).errors ∧
     (validateCashOut 7 lastB [lastA, lastB]).isValid = false) :=
  ⟨by decide, C6_double_cashout_blocked 7 lastB [lastA, lastB] (by decide)⟩

/-! ## C7 — settle-readiness flag -/

/-- C7.  `calculateEventSummary` sets `canSettle` exactly when the
still-playing count is 0 and the participant count is positive; the
flag is independent of the balance check. -/
theorem C7_canSettle_iff (participants : List Participant) :
    (calculateEventSummary participants).canSettle = true ↔
      ((calculateEventSummary participants).participantsStillPlaying = 0 ∧
       0 < (calculateEventSummary participants).participantsCount) := by
  simp [calculateEventSummary]

/-! ## C10 — empty-settlement edge case -/

/-- C10.  When no participant has cashed out (the empty list included),
`calculateDebts` takes its early return: empty debts, zero pot, zero
participant count, zero balance check — and the returned object carries
no winners or losers lists at all (`none` fields), unlike the object
built on the non-empty path. -/
theorem C10_empty_settlement (participants : List Participant)
    (h : ∀ p ∈ participants, p.cash_out_amount = none) :
    calculateDebts participants =
      { debts := [], totalPot := 0, participantsCount := 0, balanceCheck := 0,
        winners := none, losers := none } := by
  have hc : completedParticipants participants = [] := by
    simp only [completedParticipants, List.filter_eq_nil_iff]
    intro p hp
    simp [h p hp]
  simp [calculateDebts, hc]

/-- C10 (witness) at a one-participant list where the participant is
still playing. -/
theorem C10_empty_settlement_witness :
    (∀ p ∈ [soloPlayer], p.cash_out_amount = none) ∧
    calculateDebts [soloPlayer] =
      { debts := [], totalPot := 0, participantsCount := 0, balanceCheck := 0,
        winners := none, losers := none } :=
  ⟨by decide, C10_empty_settlement [soloPlayer] (by decide)⟩

/-! ## C9 — worked example reproduction -/

/-- C9.  On the eight-participant example, in the listed order,
`calculateDebts` returns total pot 1400 and balance check 0, and the
emitted debts are exactly Grace→Alice $180, Henry→Alice $90,
Frank→Alice $30, Frank→Bob $50, Eve→Bob $50 — the first two as the
spec lists them, the rest fixed by the descending sort and the greedy
two-pointer rule. -/
theorem C9_example_scenario :
    (calculateDebts examplePs).totalPot = 1400 ∧
    (calculateDebts examplePs).balanceCheck = 0 ∧
    (calculateDebts examplePs).debts =
      [ { fromUserId := "grace", fromUserName := "Grace"
          toUserId := "alice", toUserName := "Alice", amount := 180 }
      , { fromUserId := "henry", fromUserName := "Henry"
          toUserId := "alice", toUserName := "Alice", amount := 90 }
      , { fromUserId := "frank", fromUserName := "Frank"
          toUserId := "alice", toUserName := "Alice", amount := 30 }
      , { fromUserId := "frank", fromUserName := "Frank"
          toUserId := "bob", toUserName := "Bob", amount := 50 }
      , { fromUserId := "eve", fromUserName := "Eve"
          toUserId := "bob", toUserName := "Bob", amount := 50 } ] := by
  refine ⟨?_, ?_, ?_⟩ <;>
    norm_num +decide [calculateDebts, completedParticipants, balancesOf,
      winnersOf, losersOf, sortByBalanceDesc, List.insertionSort,
      List.orderedInsert, calculateNetProfitLoss, settleLoop,
      roundToTwoDecimals_eq_intFloor, examplePs, mkExampleP]

/-! ## C5 — last-player special case -/

/-- C5.  When every other participant has cashed out and at least one
other participant exists, `validateCashOut` always returns the
suggested amount `lastPlayerExpected` (total buy-ins minus the sum of
the cash-outs of the other participants, rounded), and a warning is emitted
exactly when the proposed amount differs from it by more than $0.01. -/
theorem C5_last_player_suggestion (amount : ℚ) (participant : Participant)
    (allParticipants : List Participant)
    (hall : ∀ p ∈ allParticipants.filter (fun p => p.id ≠ participant.id),
      p.cash_out_amount.isSome)
    (hne : allParticipants.filter (fun p => p.id ≠ participant.id) ≠ []) :
    (validateCashOut amount participant allParticipants).suggestedAmount =
      some (lastPlayerExpected participant allParticipants) ∧
    ((validateCashOut amount participant allParticipants).warnings ≠ [] ↔
      |amount - lastPlayerExpected participant allParticipants| > 1/100) := by
  have hcash : (allParticipants.filter (fun p => p.id ≠ participant.id)).filter
      (fun p => p.cash_out_amount.isSome) =
      allParticipants.filter (fun p => p.id ≠ participant.id) :=
    List.filter_eq_self.mpr hall
  have hplay : (allParticipants.filter (fun p => p.id ≠ participant.id)).filter
      (fun p => p.cash_out_amount.isNone) = [] := by
    rw [List.filter_eq_nil_iff]
    intro p hp
    have hs := hall p hp
    simp only [Option.isNone_iff_eq_none]
    intro hnone
    rw [hnone] at hs
    exact Bool.noConfusion hs
  have hlen : 0 < (allParticipants.filter (fun p => p.id ≠ participant.id)).length :=
    List.length_pos.mpr hne
  unfold validateCashOut lastPlayerExpected
  simp only [hcash, hplay, List.length_nil]
  rw [if_pos ⟨trivial, hlen⟩]
  refine ⟨rfl, ?_⟩
  by_cases hgap : |amount - roundToTwoDecimals (sumTotalBuyIns allParticipants -
      ((allParticipants.filter (fun p => p.id ≠ participant.id)).map
        (fun p => p.cash_out_amount.getD 0)).sum)| > 1/100 <;>
    simp [hgap]

/-- C5 (witness): participant `lastA` is the last player left; with
others having cashed out $5 of the $20 pot, the suggested amount is
$15, and the $100 proposal draws the warning. -/
theorem C5_last_player_witness :
    (∀ p ∈ [lastA, lastB].filter (fun p => p.id ≠ lastA.id),
      p.cash_out_amount.isSome) ∧
    [lastA, lastB].filter (fun p => p.id ≠ lastA.id) ≠ [] ∧
    ((validateCashOut 100 lastA [lastA, lastB]).suggestedAmount =
      some (lastPlayerExpected lastA [lastA, lastB]) ∧
    ((validateCashOut 100 lastA [lastA, lastB]).warnings ≠ [] ↔
      |(100 : ℚ) - lastPlayerExpected lastA [lastA, lastB]| > 1/100)) :=
  ⟨by decide, by decide,
    C5_last_player_suggestion 100 lastA [lastA, lastB] (by decide) (by decide)⟩

/-! ## C2 — amount exceeding the pot -/

/-- C2 (counterexample).  The claim requires the exceeds-pot hard error
for every over-pot amount, "including when the target is the last
player left to cash out".  With `lastA` the last player left of
`[lastA, lastB]` (pot $20), the proposed $100 exceeds the pot, yet
`validateCashOut` returns no error at all and `isValid = true`: the
last-player branch returns before the exceeds-pot check runs. -/
theorem C2_last_player_counterexample :
    (100 : ℚ) > sumTotalBuyIns [lastA, lastB] ∧
    (validateCashOut 100 lastA [lastA, lastB]).errors = [] ∧
    (validateCashOut 100 lastA [lastA, lastB]).isValid = true := by
  refine ⟨?_, ?_, ?_⟩ <;>
    norm_num +decide [validateCashOut, sumTotalBuyIns, calculateTotalBuyIn,
      roundToTwoDecimals_eq_intFloor, lastA, lastB]

/-- C2 (amended).  Outside the last-player branch (that is, unless
every other participant has cashed out and at least one other
participant exists), a proposed amount above the total of all
buy-ins of all participants always puts the exceeds-pot error in the error
list and makes the verdict invalid; inside that branch the check is
skipped, as the counterexample shows. -/
theorem C2_exceeds_pot_blocked (amount : ℚ) (participant : Participant)
    (allParticipants : List Participant)
    (hbranch : ¬ (((allParticipants.filter (fun p => p.id ≠ participant.id)).filter
        (fun p => p.cash_out_amount.isNone)).length = 0 ∧
      ((allParticipants.filter (fun p => p.id ≠ participant.id)).filter
        (fun p => p.cash_out_amount.isSome)).length > 0))
    (hexceed : amount > sumTotalBuyIns allParticipants) :
    msgExceedsPot ∈ (validateCashOut amount participant allParticipants).errors ∧
    (validateCashOut amount participant allParticipants).isValid = false := by
  simp only [validateCashOut]
  split
  · next h => exact absurd h hbranch
  · next h =>
      simp [hexceed, List.isEmpty_iff, List.mem_append]

/-- C2 (witness for the amended theorem): a lone still-playing
participant with a $10 buy-in proposes $100. -/
theorem C2_exceeds_pot_witness :
    (¬ ((([soloPlayer].filter (fun p => p.id ≠ soloPlayer.id)).filter
        (fun p => p.cash_out_amount.isNone)).length = 0 ∧
      (([soloPlayer].filter (fun p => p.id ≠ soloPlayer.id)).filter
        (fun p => p.cash_out_amount.isSome)).length > 0)) ∧
    (100 : ℚ) > sumTotalBuyIns [soloPlayer] ∧
    (msgExceedsPot ∈ (validateCashOut 100 soloPlayer [soloPlayer]).errors ∧
     (validateCashOut 100 soloPlayer [soloPlayer]).isValid = false) :=
  ⟨by decide,
   by norm_num +decide [sumTotalBuyIns, calculateTotalBuyIn,
     roundToTwoDecimals_eq_intFloor, soloPlayer],
   C2_exceeds_pot_blocked 100 soloPlayer [soloPlayer] (by decide)
     (by norm_num +decide [sumTotalBuyIns, calculateTotalBuyIn,
       roundToTwoDecimals_eq_intFloor, soloPlayer])⟩

/-! ## C8 — sub-cent residue dropping -/

/-- C8.  In a settlement-loop iteration whose transfer amount
`min(winner_remaining, loser_remaining)` is at most $0.01, no debt is
emitted: the loop result equals the result of the continuation in which
the amount has nevertheless been subtracted from both remaining
balances and each pointer whose updated balance fell below $0.01 has
advanced — the sub-cent residue is dropped, never carried into a later
transaction.  Moreover at least one updated balance is exactly 0, so at
least one pointer always advances. -/
theorem C8_subcent_residue_dropped (w l : BalanceEntry)
    (ws ls : List BalanceEntry)
    (h : min w.balance l.balance ≤ 1/100) :
    (settleLoop (w :: ws) (l :: ls) =
      if w.balance - min w.balance l.balance < 1/100 then
        if l.balance - min w.balance l.balance < 1/100 then
          settleLoop ws ls
        else
          settleLoop ws
            ({ l with balance := l.balance - min w.balance l.balance } :: ls)
      else
        settleLoop
          ({ w with balance := w.balance - min w.balance l.balance } :: ws) ls) ∧
    (w.balance - min w.balance l.balance = 0 ∨
     l.balance - min w.balance l.balance = 0) := by
  have hno : ¬ (1/100 < min w.balance l.balance) := not_lt.mpr h
  constructor
  · conv_lhs => rw [settleLoop]
    simp only [hno, if_false, ite_false, List.nil_append]
  · rcases min_choice w.balance l.balance with hm | hm
    · left
      rw [hm]
      ring
    · right
      rw [hm]
      ring

/-- C8 (witness): winner remaining $0.005 against loser remaining $3;
the transfer amount is $0.005 ≤ $0.01. -/
theorem C8_subcent_witness :
    min wSmall.balance lBig.balance ≤ 1/100 ∧
    ((settleLoop [wSmall] [lBig] =
      if wSmall.balance - min wSmall.balance lBig.balance < 1/100 then
        if lBig.balance - min wSmall.balance lBig.balance < 1/100 then
          settleLoop [] []
        else
          settleLoop []
            ({ lBig with balance := lBig.balance - min wSmall.balance lBig.balance } :: [])
      else
        settleLoop
          ({ wSmall with balance := wSmall.balance - min wSmall.balance lBig.balance } :: []) []) ∧
    (wSmall.balance - min wSmall.balance lBig.balance = 0 ∨
     lBig.balance - min wSmall.balance lBig.balance = 0)) :=
  ⟨by norm_num [wSmall, lBig],
   C8_subcent_residue_dropped wSmall lBig [] [] (by norm_num [wSmall, lBig])⟩

/-! ## C3 — settlement transaction bound -/

/-- Each iteration of the settlement loop emits at most one debt and
advances at least one of the two pointers, so the loop emits at most
`winners + losers − 1` debts. -/
theorem settleLoop_length_le (n : ℕ) :
    ∀ (w l : List BalanceEntry), w.length + l.length ≤ n →
      (settleLoop w l).length ≤ w.length + l.length - 1 := by
  induction n with
  | zero =>
    intro w l h
    cases w with
    | nil => simp [settleLoop]
    | cons a as =>
      cases l with
      | nil => simp [settleLoop]
      | cons b bs => simp at h
  | succ n ih =>
    intro w l h
    cases w with
    | nil => simp [settleLoop]
    | cons a as =>
      cases l with
      | nil => simp [settleLoop]
      | cons b bs =>
        simp only [List.length_cons] at h
        have hr1 := ih as bs (by omega)
        have hr2 := ih as
          ({ b with balance := b.balance - min a.balance b.balance } :: bs)
          (by simp only [List.length_cons]; omega)
        have hr3 := ih
          ({ a with balance := a.balance - min a.balance b.balance } :: as) bs
          (by simp only [List.length_cons]; omega)
        simp only [List.length_cons] at hr2 hr3
        rw [settleLoop]
        by_cases h1 : a.balance - min a.balance b.balance < 1/100
        · by_cases h2 : b.balance - min a.balance b.balance < 1/100
          · simp only [h1, h2, if_true, List.length_append, List.length_cons]
            split <;> simp <;> omega
          · simp only [h1, h2, if_true, if_false, List.length_append,
              List.length_cons]
            split <;> simp <;> omega
        · simp only [h1, if_false, List.length_append, List.length_cons]
          split <;> simp <;> omega

/-- Splitting a balance list into strictly positive and strictly
negative entries accounts exactly for the entries with nonzero
balance. -/
theorem length_filter_pos_add_neg (bs : List BalanceEntry) :
    (bs.filter (fun b => b.balance > 0)).length +
      (bs.filter (fun b => b.balance < 0)).length =
    (bs.filter (fun b => b.balance ≠ 0)).length := by
  induction bs with
  | nil => simp
  | cons x xs ih =>
    simp only [ne_eq, decide_not, gt_iff_lt] at ih ⊢
    rcases lt_trichotomy x.balance 0 with hx | hx | hx
    · have h1 : ¬ (x.balance > 0) := not_lt.mpr hx.le
      simp [List.filter_cons, h1, hx, ne_of_lt hx]
      omega
    · have h1 : ¬ (x.balance > 0) := by rw [hx]; exact lt_irrefl 0
      have h2 : ¬ (x.balance < 0) := by rw [hx]; exact lt_irrefl 0
      simp [List.filter_cons, h1, h2, hx, ih]
    · have h2 : ¬ (x.balance < 0) := not_lt.mpr hx.le
      simp [List.filter_cons, hx, h2, ne_of_gt hx]
      omega

/-- C3.  For every input list, the number of debts emitted by
`calculateDebts` is at most `winners + losers − 1`; the winner and
loser counts sum to the number of cashed-out participants with nonzero
net balance, so the debt count is also at most `N − 1` for that `N`
(all differences are truncated natural subtraction, so the empty case
reads `0 ≤ 0`). -/
theorem C3_transaction_bound (participants : List Participant) :
    (calculateDebts participants).debts.length ≤
      (winnersOf (balancesOf (completedParticipants participants))).length +
        (losersOf (balancesOf (completedParticipants participants))).length - 1 ∧
    (winnersOf (balancesOf (completedParticipants participants))).length +
        (losersOf (balancesOf (completedParticipants participants))).length =
      ((completedParticipants participants).filter (fun p =>
          calculateNetProfitLoss p.buy_in_amount p.cash_out_amount ≠ 0)).length ∧
    (calculateDebts participants).debts.length ≤
      ((completedParticipants participants).filter (fun p =>
          calculateNetProfitLoss p.buy_in_amount p.cash_out_amount ≠ 0)).length - 1 := by
  have hdebts : (calculateDebts participants).debts.length ≤
      (winnersOf (balancesOf (completedParticipants participants))).length +
        (losersOf (balancesOf (completedParticipants participants))).length - 1 := by
    simp only [calculateDebts]
    split
    · simp
    · exact settleLoop_length_le _ _ _ le_rfl
  have hcount : (winnersOf (balancesOf (completedParticipants participants))).length +
      (losersOf (balancesOf (completedParticipants participants))).length =
      ((completedParticipants participants).filter (fun p =>
          calculateNetProfitLoss p.buy_in_amount p.cash_out_amount ≠ 0)).length := by
    rw [winnersOf, losersOf, sortByBalanceDesc, sortByBalanceDesc,
      List.length_insertionSort, List.length_insertionSort, List.length_map,
      length_filter_pos_add_neg, balancesOf, List.filter_map, List.length_map]
    congr 1
  exact ⟨hdebts, hcount, by omega⟩

/-! ## C4 — conservation violation handling -/

/-- Rounding to cents cannot hide a discrepancy of a cent or more. -/
theorem roundToTwoDecimals_abs_ge (x : ℚ) (h : 1/100 ≤ |x|) :
    1/100 ≤ |roundToTwoDecimals x| := by
  rw [roundToTwoDecimals_eq_intFloor]
  rcases le_or_lt 0 x with hx | hx
  · have hxge : 1/100 ≤ x := by rwa [abs_of_nonneg hx] at h
    have h1 : (1 : ℤ) ≤ ⌊x * 100 + 1/2⌋ := by
      rw [Int.le_floor]
      push_cast
      linarith
    have h2 : (1 : ℚ) ≤ (⌊x * 100 + 1/2⌋ : ℚ) := by exact_mod_cast h1
    rw [abs_of_nonneg (by linarith : (0:ℚ) ≤ (⌊x * 100 + 1/2⌋ : ℚ) / 100)]
    linarith
  · have hxle : x ≤ -(1/100) := by
      rw [abs_of_neg hx] at h
      linarith
    have h1 : ⌊x * 100 + 1/2⌋ ≤ -1 := by
      have hle : x * 100 + 1/2 ≤ -1/2 := by linarith
      have hmono := Int.floor_mono hle
      have hfl : ⌊(-1/2 : ℚ)⌋ = -1 := by norm_num
      rw [hfl] at hmono
      exact hmono
    have h2 : (⌊x * 100 + 1/2⌋ : ℚ) ≤ -1 := by exact_mod_cast h1
    rw [abs_of_neg (by linarith : (⌊x * 100 + 1/2⌋ : ℚ) / 100 < 0)]
    linarith

/-- C4.  For a fully cashed-out participant set whose net profit/loss
sum is off by at least $0.01 (with the stored `buy_in_amount` equal to
the ledger total, as the database trigger maintains),
`checkEventCanSettle` refuses with the unbalanced-books reason, while
`calculateDebts` still returns a result carrying the discrepancy,
rounded to cents, in its `balanceCheck` diagnostic field. -/
theorem C4_conservation_violation (participants : List Participant)
    (hall : ∀ p ∈ participants, p.cash_out_amount.isSome)
    (hlink : ∀ p ∈ participants,
      p.buy_in_amount = calculateTotalBuyIn p.buy_in_ledger)
    (hbad : 1/100 ≤ |sumNetProfitLoss participants|) :
    (checkEventCanSettle participants).canSettle = false ∧
    (checkEventCanSettle participants).reason = some msgUnbalanced ∧
    (calculateDebts participants).balanceCheck =
      roundToTwoDecimals (sumNetProfitLoss participants) := by
  have hne : participants ≠ [] := by
    rintro rfl
    norm_num [sumNetProfitLoss] at hbad
  have hfilter : participants.filter (fun p => p.cash_out_amount.isSome) =
      participants := List.filter_eq_self.mpr hall
  have hsum : ∀ (l : List Participant),
      (l.map (fun p => p.cash_out_amount.getD 0 - p.buy_in_amount)).sum =
        (l.map (fun p => p.cash_out_amount.getD 0)).sum -
          (l.map (fun p => p.buy_in_amount)).sum := by
    intro l
    induction l with
    | nil => simp
    | cons a t ih =>
      simp only [List.map_cons, List.sum_cons, ih]
      ring
  have hmapbuy : participants.map (fun p => calculateTotalBuyIn p.buy_in_ledger) =
      participants.map (fun p => p.buy_in_amount) :=
    List.map_congr_left (fun p hp => (hlink p hp).symm)
  have harg : sumTotalBuyIns participants -
      (participants.map (fun p => p.cash_out_amount.getD 0)).sum =
      -(sumNetProfitLoss participants) := by
    rw [sumTotalBuyIns, hmapbuy, sumNetProfitLoss, hsum]
    ring
  have hstill : (calculateEventSummary participants).participantsStillPlaying = 0 := by
    simp [calculateEventSummary, hfilter]
  have hcount0 : ¬ ((calculateEventSummary participants).participantsCount = 0) := by
    simp only [calculateEventSummary]
    exact fun h => hne (List.eq_nil_of_length_eq_zero h)
  have hroundb : 1/100 ≤ |roundToTwoDecimals (-(sumNetProfitLoss participants))| :=
    roundToTwoDecimals_abs_ge _ (by rwa [abs_neg])
  have hnotlt : ¬ (|roundToTwoDecimals (-(sumNetProfitLoss participants))| < 1/100) :=
    not_lt.mpr hroundb
  have hnotbal : (calculateEventSummary participants).isBalanced = false := by
    simp [calculateEventSummary, hfilter, harg, hnotlt]
    simpa using hroundb
  have hB : ¬ ((calculateEventSummary participants).participantsStillPlaying > 0) := by
    rw [hstill]
    exact lt_irrefl 0
  have hmapnet : (balancesOf participants).map (·.balance) =
      participants.map (fun p => p.cash_out_amount.getD 0 - p.buy_in_amount) := by
    rw [balancesOf, List.map_map]
    apply List.map_congr_left
    intro p hp
    have hs := hall p hp
    cases hco : p.cash_out_amount with
    | none => rw [hco] at hs; exact absurd hs (by simp)
    | some c => simp [Function.comp, calculateNetProfitLoss, hco]
  have hcomp : completedParticipants participants = participants := by
    rw [completedParticipants]
    exact hfilter
  have hlen0 : ¬ ((completedParticipants participants).length = 0) := by
    rw [hcomp]
    exact fun h => hne (List.eq_nil_of_length_eq_zero h)
  refine ⟨?_, ?_, ?_⟩
  · simp [checkEventCanSettle, hcount0, hB, hnotbal]
  · simp [checkEventCanSettle, hcount0, hB, hnotbal]
  · simp only [calculateDebts, hlen0, if_false]
    simp [hcomp, hmapnet, sumNetProfitLoss]

/-- C4 (witness): one participant with a $10 ledger buy-in who cashed
out $5, a $5 conservation violation. -/
theorem C4_conservation_witness :
    (∀ p ∈ [lossyPlayer], p.cash_out_amount.isSome) ∧
    (∀ p ∈ [lossyPlayer],
      p.buy_in_amount = calculateTotalBuyIn p.buy_in_ledger) ∧
    1/100 ≤ |sumNetProfitLoss [lossyPlayer]| ∧
    ((checkEventCanSettle [lossyPlayer]).canSettle = false ∧
     (checkEventCanSettle [lossyPlayer]).reason = some msgUnbalanced ∧
     (calculateDebts [lossyPlayer]).balanceCheck =
       roundToTwoDecimals (sumNetProfitLoss [lossyPlayer])) :=
  ⟨by decide,
   by
     intro p hp
     simp only [List.mem_singleton] at hp
     subst hp
     norm_num [lossyPlayer, calculateTotalBuyIn, roundToTwoDecimals_eq_intFloor],
   by norm_num [sumNetProfitLoss, lossyPlayer],
   C4_conservation_violation [lossyPlayer] (by decide)
     (by
       intro p hp
       simp only [List.mem_singleton] at hp
       subst hp
       norm_num [lossyPlayer, calculateTotalBuyIn, roundToTwoDecimals_eq_intFloor])
     (by norm_num [sumNetProfitLoss, lossyPlayer])⟩

end SevenTwo
